import Mathlib

/-!
Verification of the font_converter_cli core: the format-compatibility model
(`Font.can_convert_to` over `UNSUPPORTED_CONVERSIONS`), the output-path
resolver (`OutputPathResolver.resolve`) and the conversion orchestrator
(`ConvertFontUseCase.execute`), embedded shallowly from the Python source.
Paths are modelled as parent components plus a final name; the filesystem is a
pair of predicates (exists, is-directory); external capabilities (the font
converter, `unlink`) are behaviour parameters.
-/

deriving instance DecidableEq for Except

namespace FontConverter

/-- Modelled from the spec: the `FontFormat` enumeration (module
`domain/enums/font_format.py`, referenced throughout the source but not
present under `src/`): a closed enumeration TTF, OTF, WOFF, WOFF2, each with a
canonical lowercase string identifier used both for file-extension detection
and for extension generation. -/
inductive FontFormat where
  | TTF
  | OTF
  | WOFF
  | WOFF2
deriving DecidableEq, Repr, Fintype

/-- Modelled from the spec: the canonical lowercase identifier of each format
(the Python enum member value, e.g. `FontFormat.WOFF.value == "woff"`). -/
def FontFormat.value : FontFormat → String
  | .TTF => "ttf"
  | .OTF => "otf"
  | .WOFF => "woff"
  | .WOFF2 => "woff2"

/-- Modelled from the spec: the Python enum value lookup `FontFormat(s)`,
which returns the member whose value equals `s` and raises `ValueError`
otherwise; the failure is modelled as `none`. -/
def FontFormat.fromString (s : String) : Option FontFormat :=
  if s = "ttf" then some .TTF
  else if s = "otf" then some .OTF
  else if s = "woff" then some .WOFF
  else if s = "woff2" then some .WOFF2
  else none

/-- The table `UNSUPPORTED_CONVERSIONS` of
`src/domain/consts/font_conversions.py`: a mapping from a source format to the
set of formats it may not be converted to; `none` models absence of the key
from the Python dict. -/
def UNSUPPORTED_CONVERSIONS : FontFormat → Option (List FontFormat)
  | .WOFF => some [.TTF, .OTF]
  | .WOFF2 => some [.TTF, .OTF]
  | .TTF => none
  | .OTF => none

/-- The `Font` entity of `src/domain/entities/font.py`. -/
structure Font where
  original_format : FontFormat
deriving DecidableEq, Repr

/-- The method `Font.can_convert_to`:
`blocked = UNSUPPORTED_CONVERSIONS.get(self.original_format, frozenset())`
followed by `target_format not in blocked`. -/
def Font.can_convert_to (f : Font) (target_format : FontFormat) : Bool :=
  let blocked := (UNSUPPORTED_CONVERSIONS f.original_format).getD []
  !(blocked.contains target_format)

/-! ### Path model

A `pathlib.Path` value is modelled as its list of parent components together
with its final name. Joining a path `p` with a name `s` (`p / s`) appends; the
join of a parent directory (`path.parent`, modelled directly as the component
list) with a name yields the sibling path, which also covers pathlib's
identity `Path(".") / s == Path(s)` for inputs with an empty component list.
Name-level `stem`, `suffix` and `with_suffix` follow pathlib: the suffix is
the substring from the last dot of the name, provided that dot is neither the
first nor the last character; otherwise the suffix is empty and the stem is
the whole name. -/

/-- Python `str.lower()` (the modelled strings are ASCII): lowercase every
character. -/
def strToLower (s : String) : String := ⟨s.toList.map Char.toLower⟩

/-- Split a character list at its LAST dot: `some (before, fromDotOn)` when a
dot occurs, `none` otherwise. -/
def splitLastDot : List Char → Option (List Char × List Char)
  | [] => none
  | c :: rest =>
    match splitLastDot rest with
    | some (pre, suf) => some (c :: pre, suf)
    | none => if c = '.' then some ([], '.' :: rest) else none

/-- Pathlib `PurePath.stem` on a file name: the name up to the last dot when
`0 < i < len(name) - 1` for the last dot index `i`, else the whole name. -/
def nameStem (name : String) : String :=
  match splitLastDot name.toList with
  | some (pre, suf) => if 0 < pre.length ∧ 2 ≤ suf.length then ⟨pre⟩ else name
  | none => name

/-- Pathlib `PurePath.suffix` on a file name: the name from the last dot on
(dot included) when `0 < i < len(name) - 1` for the last dot index `i`, else
the empty string. -/
def nameSuffix (name : String) : String :=
  match splitLastDot name.toList with
  | some (pre, suf) => if 0 < pre.length ∧ 2 ≤ suf.length then ⟨suf⟩ else ""
  | none => ""

/-- A filesystem path: parent components plus final name. -/
structure FsPath where
  dirs : List String
  name : String
deriving DecidableEq, Repr

def FsPath.stem (p : FsPath) : String := nameStem p.name

def FsPath.pathSuffix (p : FsPath) : String := nameSuffix p.name

/-- Pathlib `with_suffix`: replace the (possibly empty) suffix of the name,
keeping directory and stem; for a valid non-empty name this equals
`stem + newSuffix`. -/
def FsPath.withSuffix (p : FsPath) (suf : String) : FsPath :=
  ⟨p.dirs, p.stem ++ suf⟩

/-- Pathlib `/`: treat `p` as a directory and append a child name. -/
def FsPath.join (p : FsPath) (child : String) : FsPath :=
  ⟨p.dirs ++ [p.name], child⟩

/-- String rendering of a path (components joined by `/`), used only inside
exception messages, mirroring `str(path)` in f-strings. -/
def FsPath.render (p : FsPath) : String :=
  String.intercalate "/" (p.dirs ++ [p.name])

/-! ### Filesystem model

The filesystem is a pair of Boolean predicates on paths: `fsExists` models
`path.exists()` and `fsIsDir` models `path.is_dir()`. The model distinguishes
only files and directories, so `path.is_file()` is `exists ∧ ¬ is_dir`.
`mkdir(parents=True, exist_ok=True)` succeeds unless the path itself exists as
a non-directory (`FileExistsError`); on success the path is registered as an
existing directory (created ancestors are not tracked: no operation in the
embedded code queries them afterwards). -/

structure FS where
  fsExists : FsPath → Bool
  fsIsDir : FsPath → Bool

/-- Register `p` as an existing directory (effect of a successful `mkdir`). -/
def FS.addDir (fs : FS) (p : FsPath) : FS :=
  ⟨fun q => if q = p then true else fs.fsExists q,
   fun q => if q = p then true else fs.fsIsDir q⟩

/-- Register `p` as an existing regular file (effect of a partial output file
appearing at `p`). -/
def FS.addFile (fs : FS) (p : FsPath) : FS :=
  ⟨fun q => if q = p then true else fs.fsExists q,
   fun q => if q = p then false else fs.fsIsDir q⟩

/-- The empty filesystem: nothing exists. -/
def fsEmpty : FS := ⟨fun _ => false, fun _ => false⟩

/-- The single failure mode of the resolver: `Path.mkdir` raising
`FileExistsError` because the path exists as a non-directory. -/
inductive MkdirError where
  | fileExistsError
deriving DecidableEq, Repr

/-- The method `OutputPathResolver.resolve` of
`src/infrastructure/adapters/output_path_resolver.py`, with its four source
branches in source order:
no hint → `input_path.with_suffix("." + target_format.value)`;
hint an existing directory → hint joined with `stem.targetExt`;
hint without suffix → `mkdir(parents=True, exist_ok=True)` then the same join;
hint with a suffix → suffix forced to the canonical one when its lowercase
form differs, else the hint verbatim. The returned pair carries the possibly
extended filesystem. -/
def OutputPathResolver.resolve (fs : FS) (input_path : FsPath)
    (target_format : FontFormat) (output : Option FsPath) :
    Except MkdirError (FsPath × FS) :=
  match output with
  | none => .ok (input_path.withSuffix ("." ++ target_format.value), fs)
  | some output_path_candidate =>
    if fs.fsExists output_path_candidate && fs.fsIsDir output_path_candidate then
      .ok (output_path_candidate.join (input_path.stem ++ "." ++ target_format.value), fs)
    else if output_path_candidate.pathSuffix = "" then
      if fs.fsExists output_path_candidate && !fs.fsIsDir output_path_candidate then
        .error .fileExistsError
      else
        .ok (output_path_candidate.join (input_path.stem ++ "." ++ target_format.value),
          fs.addDir output_path_candidate)
    else
      let desired_suffix := "." ++ target_format.value
      if strToLower output_path_candidate.pathSuffix ≠ desired_suffix then
        .ok (output_path_candidate.withSuffix desired_suffix, fs)
      else
        .ok (output_path_candidate, fs)

/-- Projection of a resolver outcome to the destination path alone (drops the
filesystem component, which has no decidable equality). -/
def resolvedPath (r : Except MkdirError (FsPath × FS)) : Except MkdirError FsPath :=
  r.map Prod.fst

/-! ### The orchestrator `ConvertFontUseCase.execute`

Python exception values are modelled as a class tag plus message. The classes
are flat and pairwise unrelated; in particular the builtin `FileNotFoundError`
and `ValueError` raised by `execute` bear no subclass relation to the domain
and application exception classes of `src/domain/exceptions/`, which the use
case never instantiates. -/

inductive PyExcClass where
  | fileNotFoundError
  | valueError
  | otherException
  | inputFileNotFoundError
  | invalidFontFormatError
  | fontConversionError
  | fontConversionFailedError
deriving DecidableEq, Repr

/-- A raised Python exception: its class and its message. -/
structure PyExc where
  cls : PyExcClass
  msg : String
deriving DecidableEq, Repr

/-- The adapter `FileService.file_exists` of
`src/infrastructure/adapters/file_service.py`:
`file_path.exists() and file_path.is_file()`. -/
def FileService.file_exists (fs : FS) (file_path : FsPath) : Bool :=
  fs.fsExists file_path && !fs.fsIsDir file_path

/-- The adapter `FileService.get_parent_directory`: `file_path.parent`,
modelled as the component list (see the path-model note). -/
def FileService.get_parent_directory (file_path : FsPath) : List String :=
  file_path.dirs

/-- The adapter `FileService.get_file_name_without_extension`:
`file_path.stem`. -/
def FileService.get_file_name_without_extension (file_path : FsPath) : String :=
  file_path.stem

/-- The DTO `ConvertFontRequest` of
`src/application/dto/convert_font_request.py`; `output_file_path` defaults to
`None`, modelled as `Option`. -/
structure ConvertFontRequest where
  input_file_path : FsPath
  target_format : FontFormat
  output_file_path : Option FsPath := none
deriving DecidableEq, Repr

/-- The DTO `ConvertFontResult` of
`src/application/dto/convert_font_result.py`. -/
structure ConvertFontResult where
  output_file_path : FsPath
  target_format : FontFormat
  success : Bool
deriving DecidableEq, Repr

/-- Calls the orchestrator makes on its two ports, recorded in order: the
existence checks and deletions on the file service, and the invocation of the
font-conversion capability. -/
inductive Event where
  | fileExistsCall (p : FsPath) (r : Bool)
  | convertCall (input output : FsPath) (t : FontFormat)
  | deleteCall (p : FsPath)
deriving DecidableEq, Repr

/-- Behaviour of one call to the external font-conversion capability:
its outcome (`.ok` or a raised exception) and whether the output path exists
as a file afterwards (partial output on failure, the converted file on
success). -/
structure ConvertBehavior where
  outcome : Except PyExc Unit
  leavesOutput : Bool

/-- The environment `execute` runs in: the initial filesystem, the behaviour
of the external conversion capability, and the outcome of `unlink` when the
file service deletes a path (`none` models a successful deletion). -/
structure Env where
  fs0 : FS
  convertBeh : FsPath → FsPath → FontFormat → ConvertBehavior
  unlinkErr : FsPath → Option PyExc

/-- Python `str.lstrip(".")`: drop all leading dots. -/
def lstripDots (s : String) : String :=
  ⟨s.toList.dropWhile (· = '.')⟩

/-- The helper `ConvertFontUseCase._detect_font_format`:
`extension = file_path.suffix.lower().lstrip(".")`, then `FontFormat(extension)`,
re-raising the lookup failure as `ValueError("Unknown font format: ...")`. -/
def ConvertFontUseCase.detect_font_format (file_path : FsPath) :
    Except PyExc FontFormat :=
  let extension := lstripDots (strToLower file_path.pathSuffix)
  match FontFormat.fromString extension with
  | some f => .ok f
  | none => .error ⟨.valueError, "Unknown font format: " ++ extension⟩

/-- The helper `ConvertFontUseCase._determine_output_path`: the request's
`output_file_path` verbatim when supplied (a `Path` is always truthy), else
`parent / f"{stem}.{target.value}"` computed through the file service. -/
def ConvertFontUseCase.determine_output_path (request : ConvertFontRequest) :
    FsPath :=
  match request.output_file_path with
  | some p => p
  | none =>
    let parent_dir := FileService.get_parent_directory request.input_file_path
    let file_name := FileService.get_file_name_without_extension request.input_file_path
    ⟨parent_dir, file_name ++ "." ++ request.target_format.value⟩

/-- The `except Exception:` block of `ConvertFontUseCase.execute` (its only
non-straight-line part, factored out): on a converter failure with underlying
exception `cause`, the output path is checked through the file service against
the post-conversion filesystem (`env.fs0` plus the partial output file when
the converter left one); if it reports a file there, `delete_file` is called
(whose `unlink` outcome comes from `env.unlinkErr`: an exception raised during
the deletion replaces `cause`, as an exception raised inside an `except` block
propagates in Python); finally the original `cause` is re-raised by the bare
`raise`. -/
def ConvertFontUseCase.cleanupReraise (env : Env) (leavesOutput : Bool)
    (output_path : FsPath) (cause : PyExc) (t2 : List Event) :
    Except PyExc ConvertFontResult × List Event :=
  let fs1 := if leavesOutput then env.fs0.addFile output_path else env.fs0
  let e2 := FileService.file_exists fs1 output_path
  let t3 := t2 ++ [Event.fileExistsCall output_path e2]
  if e2 then
    (.error ((env.unlinkErr output_path).getD cause),
      t3 ++ [Event.deleteCall output_path])
  else
    (.error cause, t3)

/-- The method `ConvertFontUseCase.execute` of
`src/application/use_cases/convert_font_use_case.py`, step by step:
input-existence check raising builtin `FileNotFoundError`; output-path
determination; format detection raising builtin `ValueError`; compatibility
check raising builtin `ValueError`; converter invocation; on converter
failure, an existence check on the output followed by at most one
`delete_file` and a bare `raise` of the original exception (an exception from
the deletion itself replaces it); on success the result DTO. The second
component is the trace of port calls. -/
def ConvertFontUseCase.execute (env : Env) (request : ConvertFontRequest) :
    Except PyExc ConvertFontResult × List Event :=
  let e1 := FileService.file_exists env.fs0 request.input_file_path
  let t1 := [Event.fileExistsCall request.input_file_path e1]
  if !e1 then
    (.error ⟨.fileNotFoundError,
      "Input file not found: " ++ request.input_file_path.render⟩, t1)
  else
    let output_path := ConvertFontUseCase.determine_output_path request
    match ConvertFontUseCase.detect_font_format request.input_file_path with
    | .error e => (.error e, t1)
    | .ok fmt =>
      let font : Font := ⟨fmt⟩
      if !(font.can_convert_to request.target_format) then
        (.error ⟨.valueError,
          "Cannot convert from " ++ fmt.value ++ " to " ++
            request.target_format.value⟩, t1)
      else
        let beh := env.convertBeh request.input_file_path output_path
          request.target_format
        let t2 := t1 ++ [Event.convertCall request.input_file_path output_path
          request.target_format]
        match beh.outcome with
        | .ok _ =>
          (.ok ⟨output_path, request.target_format, true⟩, t2)
        | .error cause =>
          ConvertFontUseCase.cleanupReraise env beh.leavesOutput output_path cause t2

/-- True when the trace contains an invocation of the font-conversion
capability. -/
def callsConvert (tr : List Event) : Bool :=
  tr.any fun e => match e with
    | .convertCall _ _ _ => true
    | _ => false

/-- Number of `delete_file` calls in a trace. -/
def deleteCalls (tr : List Event) : Nat :=
  (tr.filter fun e => match e with
    | .deleteCall _ => true
    | _ => false).length

/-! ### Concrete fixtures for witnesses and counterexamples -/

/-- A filesystem holding exactly the regular file `font.ttf`. -/
def fsFontTtf : FS := fsEmpty.addFile ⟨[], "font.ttf"⟩

/-- Environment in which conversion succeeds. -/
def envSuccess : Env := ⟨fsFontTtf, fun _ _ _ => ⟨.ok (), true⟩, fun _ => none⟩

/-- Environment in which the conversion capability raises after creating a
partial output file; deletion succeeds. -/
def envConvFail : Env :=
  ⟨fsFontTtf, fun _ _ _ => ⟨.error ⟨.otherException, "Conversion failed"⟩, true⟩,
    fun _ => none⟩

/-- Like `envConvFail` but the cleanup `unlink` itself raises. -/
def envConvFailDel : Env :=
  ⟨fsFontTtf, fun _ _ _ => ⟨.error ⟨.otherException, "Conversion failed"⟩, true⟩,
    fun _ => some ⟨.otherException, "PermissionError"⟩⟩

/-- Environment holding a `font.woff` input file. -/
def envWoff : Env :=
  ⟨fsEmpty.addFile ⟨[], "font.woff"⟩, fun _ _ _ => ⟨.ok (), true⟩, fun _ => none⟩

/-- Environment holding a `font.xyz` input file (unknown extension). -/
def envXyz : Env :=
  ⟨fsEmpty.addFile ⟨[], "font.xyz"⟩, fun _ _ _ => ⟨.ok (), true⟩, fun _ => none⟩

/-- Environment with an empty filesystem: every input file is missing. -/
def envMissing : Env := ⟨fsEmpty, fun _ _ _ => ⟨.ok (), true⟩, fun _ => none⟩

/-- Request: convert `font.ttf` to WOFF, no output hint. -/
def reqTtfWoff : ConvertFontRequest := ⟨⟨[], "font.ttf"⟩, .WOFF, none⟩

end FontConverter

namespace FontConverter

/-- Every branch of the `except` block re-raises: `cleanupReraise` always
yields an error outcome, never a result. -/
theorem cleanupReraise_not_ok (env : Env) (lv : Bool) (o : FsPath)
    (cause : PyExc) (t2 : List Event) (r : ConvertFontResult) :
    (ConvertFontUseCase.cleanupReraise env lv o cause t2).1 ≠ .ok r := by
  intro hko
  simp only [ConvertFontUseCase.cleanupReraise] at hko
  split at hko <;> try split at hko
  all_goals simp at hko

/-- Claim C1: `can_convert_to` returns true except from WOFF/WOFF2 to TTF/OTF;
identity conversions are always allowed; a source format absent from
`UNSUPPORTED_CONVERSIONS` may convert to all four formats. -/
theorem claim_C1 :
    (∀ s t : FontFormat, (Font.mk s).can_convert_to t = false ↔
      ((s = .WOFF ∨ s = .WOFF2) ∧ (t = .TTF ∨ t = .OTF))) ∧
    (∀ s : FontFormat, (Font.mk s).can_convert_to s = true) ∧
    (∀ s : FontFormat, UNSUPPORTED_CONVERSIONS s = none →
      ∀ t : FontFormat, (Font.mk s).can_convert_to t = true) := by
  refine ⟨?_, ?_, ?_⟩ <;> decide

/-- Witness for C1 at concrete formats. -/
theorem claim_C1_witness :
    (Font.mk FontFormat.WOFF).can_convert_to FontFormat.TTF = false ∧
    (Font.mk FontFormat.TTF).can_convert_to FontFormat.TTF = true ∧
    (Font.mk FontFormat.OTF).can_convert_to FontFormat.WOFF2 = true :=
  ⟨(claim_C1.1 FontFormat.WOFF FontFormat.TTF).mpr ⟨Or.inl rfl, Or.inl rfl⟩,
   claim_C1.2.1 FontFormat.TTF,
   claim_C1.2.2 FontFormat.OTF rfl FontFormat.WOFF2⟩

/-- Claim C2, settled against the code at its failing inputs: `execute` raises
the builtin `FileNotFoundError` for a missing input and the builtin
`ValueError` both for an unknown extension and for a blocked pair, none of
which is the classified exception class the claim (and the repository's own
test suite) names; the last two kinds are moreover collapsed into the same
class. -/
theorem claim_C2_code_eval :
    ((ConvertFontUseCase.execute envMissing ⟨⟨[], "nonexistent.ttf"⟩, .WOFF, none⟩).1 =
      .error ⟨.fileNotFoundError, "Input file not found: nonexistent.ttf"⟩) ∧
    ((ConvertFontUseCase.execute envXyz ⟨⟨[], "font.xyz"⟩, .WOFF, none⟩).1 =
      .error ⟨.valueError, "Unknown font format: xyz"⟩) ∧
    ((ConvertFontUseCase.execute envWoff ⟨⟨[], "font.woff"⟩, .TTF, none⟩).1 =
      .error ⟨.valueError, "Cannot convert from woff to ttf"⟩) ∧
    PyExcClass.fileNotFoundError ≠ PyExcClass.inputFileNotFoundError ∧
    PyExcClass.valueError ≠ PyExcClass.invalidFontFormatError ∧
    PyExcClass.valueError ≠ PyExcClass.fontConversionError := by
  refine ⟨by decide, by decide, by decide, by decide, by decide, by decide⟩

/-- Claim C3, settled against the code at its failing input: when the
converter raises after creating a partial output file, `execute` deletes the
file exactly once but then re-raises the underlying exception unchanged
instead of a `FontConversionFailedError` wrapping it, and an exception raised
by the cleanup deletion itself does propagate over the original failure. -/
theorem claim_C3_code_eval :
    ((ConvertFontUseCase.execute envConvFail reqTtfWoff).1 =
      .error ⟨.otherException, "Conversion failed"⟩) ∧
    deleteCalls (ConvertFontUseCase.execute envConvFail reqTtfWoff).2 = 1 ∧
    ((ConvertFontUseCase.execute envConvFailDel reqTtfWoff).1 =
      .error ⟨.otherException, "PermissionError"⟩) ∧
    PyExcClass.otherException ≠ PyExcClass.fontConversionFailedError := by
  refine ⟨by decide, by decide, by decide, by decide⟩

/-- Claim C4 counterexample: for a request whose output path is explicitly
supplied, `execute` does NOT run the resolver cascade: the supplied hint
`out/res.ttf` with target WOFF2 is used verbatim as the destination, while the
cascade on the same inputs yields `out/res.woff2`. -/
theorem claim_C4_counterexample :
    ((ConvertFontUseCase.execute
        ⟨fsEmpty.addFile ⟨["a"], "font.ttf"⟩, fun _ _ _ => ⟨.ok (), true⟩, fun _ => none⟩
        ⟨⟨["a"], "font.ttf"⟩, .WOFF2, some ⟨["out"], "res.ttf"⟩⟩).1 =
      .ok ⟨⟨["out"], "res.ttf"⟩, .WOFF2, true⟩) ∧
    resolvedPath (OutputPathResolver.resolve (fsEmpty.addFile ⟨["a"], "font.ttf"⟩)
        ⟨["a"], "font.ttf"⟩ .WOFF2 (some ⟨["out"], "res.ttf"⟩)) =
      .ok ⟨["out"], "res.woff2"⟩ ∧
    (FsPath.mk ["out"] "res.ttf") ≠ ⟨["out"], "res.woff2"⟩ := by
  refine ⟨by decide, by decide, by decide⟩

/-- Claim C4 as amended: an explicitly supplied output path is used verbatim
by `execute` (the resolver cascade is applied by the CLI before the request is
built, not by `execute`); with no output path, `execute` computes the sibling
path of the input with the target's canonical extension, which coincides with
the resolver's nil-hint case. -/
theorem claim_C4_amended (request : ConvertFontRequest) (fs : FS) :
    (∀ p, request.output_file_path = some p →
      ConvertFontUseCase.determine_output_path request = p) ∧
    (request.output_file_path = none →
      ConvertFontUseCase.determine_output_path request =
        ⟨request.input_file_path.dirs,
          request.input_file_path.stem ++ "." ++ request.target_format.value⟩ ∧
      resolvedPath (OutputPathResolver.resolve fs request.input_file_path
          request.target_format none) =
        .ok (ConvertFontUseCase.determine_output_path request)) := by
  constructor
  · intro p hp
    simp [ConvertFontUseCase.determine_output_path, hp]
  · intro hn
    constructor
    · simp [ConvertFontUseCase.determine_output_path, hn,
        FileService.get_parent_directory, FileService.get_file_name_without_extension]
    · simp [ConvertFontUseCase.determine_output_path, hn, OutputPathResolver.resolve,
        resolvedPath, Except.map, FsPath.withSuffix,
        FileService.get_parent_directory, FileService.get_file_name_without_extension,
        String.append_assoc]

/-- Witness for the amended C4 at the concrete request of the repository's
`test_custom_output_path`: the supplied path comes back verbatim. -/
theorem claim_C4_witness :
    ConvertFontUseCase.determine_output_path
      ⟨⟨["a"], "font.ttf"⟩, FontFormat.WOFF2, some ⟨["custom"], "output.woff2"⟩⟩ =
      ⟨["custom"], "output.woff2"⟩ :=
  (claim_C4_amended ⟨⟨["a"], "font.ttf"⟩, FontFormat.WOFF2,
    some ⟨["custom"], "output.woff2"⟩⟩ fsEmpty).1 _ rfl

/-- Claim C5 counterexample: a filesystem-creation failure also arises when
the extensionless hint DOES exist on disk (as a regular file), outside the
precondition the claim states for case 3. -/
theorem claim_C5_counterexample :
    (OutputPathResolver.resolve (fsEmpty.addFile ⟨[], "outhint"⟩) ⟨[], "font.ttf"⟩
        .WOFF2 (some ⟨[], "outhint"⟩) = .error .fileExistsError) ∧
    (fsEmpty.addFile ⟨[], "outhint"⟩).fsExists ⟨[], "outhint"⟩ = true ∧
    (FsPath.mk [] "outhint").pathSuffix = "" := by
  refine ⟨?_, by decide, by decide⟩
  have h : resolvedPath (OutputPathResolver.resolve (fsEmpty.addFile ⟨[], "outhint"⟩)
      ⟨[], "font.ttf"⟩ .WOFF2 (some ⟨[], "outhint"⟩)) = .error .fileExistsError := by decide
  revert h
  unfold resolvedPath
  cases OutputPathResolver.resolve (fsEmpty.addFile ⟨[], "outhint"⟩) ⟨[], "font.ttf"⟩
    .WOFF2 (some ⟨[], "outhint"⟩) <;> simp [Except.map]

/-- Claim C5 as amended: resolution is a total function of its inputs (hence
deterministic), its only failure is the directory-creation `FileExistsError`,
which arises exactly in the no-extension branch when the hint exists as a
non-directory; when the hint has no extension and does not exist at all, the
directory is created and the result is the hint joined with the input stem
plus the target's canonical extension. -/
theorem claim_C5_amended (fs : FS) (i : FsPath) (t : FontFormat) (h : Option FsPath) :
    (∀ e, OutputPathResolver.resolve fs i t h = .error e →
      e = .fileExistsError ∧ ∃ c, h = some c ∧ c.pathSuffix = "" ∧
        fs.fsExists c = true ∧ fs.fsIsDir c = false) ∧
    (∀ c, h = some c → c.pathSuffix = "" → fs.fsExists c = false →
      OutputPathResolver.resolve fs i t h =
        .ok (c.join (i.stem ++ "." ++ t.value), fs.addDir c)) := by
  constructor
  · intro e he
    cases h with
    | none => simp [OutputPathResolver.resolve] at he
    | some c =>
      simp only [OutputPathResolver.resolve] at he
      by_cases h1 : (fs.fsExists c && fs.fsIsDir c) = true
      · rw [if_pos h1] at he; exact absurd he (by simp)
      · rw [if_neg h1] at he
        by_cases h2 : c.pathSuffix = ""
        · rw [if_pos h2] at he
          by_cases h3 : (fs.fsExists c && !fs.fsIsDir c) = true
          · rw [if_pos h3] at he
            simp only [Bool.and_eq_true, Bool.not_eq_true'] at h3
            cases e
            exact ⟨rfl, c, rfl, h2, h3.1, h3.2⟩
          · rw [if_neg h3] at he; exact absurd he (by simp)
        · rw [if_neg h2] at he
          by_cases h4 : strToLower c.pathSuffix ≠ "." ++ t.value
          · rw [if_pos h4] at he; exact absurd he (by simp)
          · rw [if_neg h4] at he; exact absurd he (by simp)
  · intro c hc hsuf hex
    subst hc
    simp only [OutputPathResolver.resolve]
    rw [if_neg (by simp [hex]), if_pos hsuf, if_neg (by simp [hex])]

/-- Witness for the amended C5: creating `outdir` on an empty filesystem. -/
theorem claim_C5_witness :
    OutputPathResolver.resolve fsEmpty ⟨[], "font.ttf"⟩ FontFormat.WOFF2
      (some ⟨[], "outdir"⟩) =
      .ok ((FsPath.mk [] "outdir").join
        ((FsPath.mk [] "font.ttf").stem ++ "." ++ FontFormat.WOFF2.value),
        fsEmpty.addDir ⟨[], "outdir"⟩) :=
  (claim_C5_amended fsEmpty ⟨[], "font.ttf"⟩ FontFormat.WOFF2
    (some ⟨[], "outdir"⟩)).2 ⟨[], "outdir"⟩ rfl rfl rfl

/-- Claim C6: a hint that is not an existing directory and has a file
extension whose lowercase form differs from the target's canonical extension
keeps its directory and stem and has its extension forced to the canonical
one, without error; a hint whose extension already matches (case-
insensitively) is returned verbatim. -/
theorem claim_C6 (fs : FS) (i : FsPath) (t : FontFormat) (c : FsPath)
    (h1 : ¬(fs.fsExists c = true ∧ fs.fsIsDir c = true))
    (h2 : c.pathSuffix ≠ "") :
    (strToLower c.pathSuffix ≠ "." ++ t.value →
      OutputPathResolver.resolve fs i t (some c) =
        .ok (⟨c.dirs, c.stem ++ ("." ++ t.value)⟩, fs)) ∧
    (strToLower c.pathSuffix = "." ++ t.value →
      OutputPathResolver.resolve fs i t (some c) = .ok (c, fs)) := by
  have hb : ¬((fs.fsExists c && fs.fsIsDir c) = true) := by
    simp only [Bool.and_eq_true]; exact h1
  constructor
  · intro hm
    simp only [OutputPathResolver.resolve]
    rw [if_neg hb, if_neg h2, if_pos hm]
    rfl
  · intro hm
    simp only [OutputPathResolver.resolve]
    rw [if_neg hb, if_neg h2, if_neg (by simp [hm])]

/-- Witness for C6 at the spec's own example:
`resolve("a/font.ttf", WOFF2, "out/res.ttf")` yields `out/res.woff2`. -/
theorem claim_C6_witness :
    resolvedPath (OutputPathResolver.resolve fsEmpty ⟨["a"], "font.ttf"⟩
      FontFormat.WOFF2 (some ⟨["out"], "res.ttf"⟩)) = .ok ⟨["out"], "res.woff2"⟩ := by
  have h := (claim_C6 fsEmpty ⟨["a"], "font.ttf"⟩ FontFormat.WOFF2 ⟨["out"], "res.ttf"⟩
    (by decide) (by decide)).1 (by decide)
  rw [show OutputPathResolver.resolve fsEmpty ⟨["a"], "font.ttf"⟩ FontFormat.WOFF2
    (some ⟨["out"], "res.ttf"⟩) = _ from h]
  decide

/-- Claim C7: when the detected source format is blocked from converting to
the target, `execute` fails with the blocked-conversion error carrying both
formats and the conversion capability is never invoked; in general, any trace
that contains a converter call passed the compatibility check first. -/
theorem claim_C7 (env : Env) (request : ConvertFontRequest) (s : FontFormat)
    (hex : FileService.file_exists env.fs0 request.input_file_path = true)
    (hdet : ConvertFontUseCase.detect_font_format request.input_file_path = .ok s)
    (hblocked : (Font.mk s).can_convert_to request.target_format = false) :
    ((ConvertFontUseCase.execute env request).1 =
      .error ⟨.valueError,
        "Cannot convert from " ++ s.value ++ " to " ++ request.target_format.value⟩) ∧
    callsConvert (ConvertFontUseCase.execute env request).2 = false ∧
    ∀ env' req', callsConvert (ConvertFontUseCase.execute env' req').2 = true →
      ∃ s', ConvertFontUseCase.detect_font_format req'.input_file_path = .ok s' ∧
        (Font.mk s').can_convert_to req'.target_format = true := by
  refine ⟨?_, ?_, ?_⟩
  · simp [ConvertFontUseCase.execute, hex, hdet, hblocked]
  · simp [ConvertFontUseCase.execute, hex, hdet, hblocked, callsConvert]
  · intro env' req' hcall
    simp only [ConvertFontUseCase.execute] at hcall
    split at hcall
    · simp [callsConvert] at hcall
    · split at hcall
      · simp [callsConvert] at hcall
      next fmt heq =>
        split at hcall
        · simp [callsConvert] at hcall
        next hc =>
          refine ⟨fmt, heq, ?_⟩
          simpa using hc

/-- Witness for C7: `font.woff` to TTF fails before conversion. -/
theorem claim_C7_witness :
    ((ConvertFontUseCase.execute envWoff ⟨⟨[], "font.woff"⟩, FontFormat.TTF, none⟩).1 =
      .error ⟨.valueError,
        "Cannot convert from " ++ FontFormat.WOFF.value ++ " to " ++ FontFormat.TTF.value⟩) ∧
    callsConvert (ConvertFontUseCase.execute envWoff
      ⟨⟨[], "font.woff"⟩, FontFormat.TTF, none⟩).2 = false := by
  have h := claim_C7 envWoff ⟨⟨[], "font.woff"⟩, FontFormat.TTF, none⟩ FontFormat.WOFF
    (by decide) (by decide) (by decide)
  exact ⟨h.1, h.2.1⟩

/-- Claim C8: with an absent hint, `resolve` returns the sibling path of the
input (same parent components and stem, extension replaced by the target's
canonical extension); the orchestrator's no-hint destination is the same
sibling path. -/
theorem claim_C8 (fs : FS) (input_path : FsPath) (t : FontFormat) :
    OutputPathResolver.resolve fs input_path t none =
      .ok (⟨input_path.dirs, input_path.stem ++ ("." ++ t.value)⟩, fs) ∧
    ∀ request : ConvertFontRequest, request.output_file_path = none →
      ConvertFontUseCase.determine_output_path request =
        ⟨request.input_file_path.dirs,
          request.input_file_path.stem ++ "." ++ request.target_format.value⟩ := by
  constructor
  · rfl
  · intro request h
    simp [ConvertFontUseCase.determine_output_path, h,
      FileService.get_parent_directory, FileService.get_file_name_without_extension]

/-- Witness for C8 at the spec's own example:
`resolve("dir/font.ttf", WOFF, nil)` yields `dir/font.woff`. -/
theorem claim_C8_witness :
    resolvedPath (OutputPathResolver.resolve fsEmpty ⟨["dir"], "font.ttf"⟩
      FontFormat.WOFF none) = .ok ⟨["dir"], "font.woff"⟩ ∧
    ConvertFontUseCase.determine_output_path
      ⟨⟨["dir"], "font.ttf"⟩, FontFormat.WOFF, none⟩ = ⟨["dir"], "font.woff"⟩ := by
  have h := claim_C8 fsEmpty ⟨["dir"], "font.ttf"⟩ FontFormat.WOFF
  constructor
  · rw [show OutputPathResolver.resolve fsEmpty ⟨["dir"], "font.ttf"⟩ FontFormat.WOFF none
      = _ from h.1]
    decide
  · rw [h.2 ⟨⟨["dir"], "font.ttf"⟩, FontFormat.WOFF, none⟩ rfl]
    decide

/-- Claim C9: resolution is idempotent; a successful resolution re-run on the
resulting filesystem yields the same destination path (and the same
filesystem): after the no-extension branch creates the directory, the second
run resolves through the existing-directory branch to the identical path. -/
theorem claim_C9 (fs fs' : FS) (i : FsPath) (t : FontFormat) (h : Option FsPath)
    (p : FsPath)
    (hres : OutputPathResolver.resolve fs i t h = .ok (p, fs')) :
    OutputPathResolver.resolve fs' i t h = .ok (p, fs') := by
  cases h with
  | none =>
    simp only [OutputPathResolver.resolve, Except.ok.injEq, Prod.mk.injEq] at hres ⊢
    exact ⟨hres.1, trivial⟩
  | some c =>
    simp only [OutputPathResolver.resolve] at hres ⊢
    by_cases h1 : (fs.fsExists c && fs.fsIsDir c) = true
    · rw [if_pos h1] at hres
      simp only [Except.ok.injEq, Prod.mk.injEq] at hres
      obtain ⟨hp, hfs⟩ := hres
      subst hfs
      rw [if_pos h1, hp]
    · rw [if_neg h1] at hres
      by_cases h2 : c.pathSuffix = ""
      · rw [if_pos h2] at hres
        by_cases h3 : (fs.fsExists c && !fs.fsIsDir c) = true
        · rw [if_pos h3] at hres; exact absurd hres (by simp)
        · rw [if_neg h3] at hres
          simp only [Except.ok.injEq, Prod.mk.injEq] at hres
          obtain ⟨hp, hfs⟩ := hres
          have hdir : (fs'.fsExists c && fs'.fsIsDir c) = true := by
            subst hfs; simp [FS.addDir]
          rw [if_pos hdir, hp]
      · rw [if_neg h2] at hres
        by_cases h4 : strToLower c.pathSuffix ≠ "." ++ t.value
        · rw [if_pos h4] at hres
          simp only [Except.ok.injEq, Prod.mk.injEq] at hres
          obtain ⟨hp, hfs⟩ := hres
          subst hfs
          rw [if_neg h1, if_neg h2, if_pos h4, hp]
        · rw [if_neg h4] at hres
          simp only [Except.ok.injEq, Prod.mk.injEq] at hres
          obtain ⟨hp, hfs⟩ := hres
          subst hfs
          rw [if_neg h1, if_neg h2, if_neg h4, hp]

/-- Witness for C9 across the directory-creation side effect: re-resolving
after `outdir` was created yields the identical destination. -/
theorem claim_C9_witness :
    OutputPathResolver.resolve (fsEmpty.addDir ⟨[], "outdir"⟩) ⟨[], "font.ttf"⟩
      FontFormat.WOFF2 (some ⟨[], "outdir"⟩) =
      .ok (⟨["outdir"], "font.woff2"⟩, fsEmpty.addDir ⟨[], "outdir"⟩) :=
  claim_C9 fsEmpty (fsEmpty.addDir ⟨[], "outdir"⟩) ⟨[], "font.ttf"⟩ FontFormat.WOFF2
    (some ⟨[], "outdir"⟩) ⟨["outdir"], "font.woff2"⟩ (by rfl)

/-- Claim C10: every result value `execute` returns has `success = true` and
`target_format` equal to the request's target format. -/
theorem claim_C10 (env : Env) (request : ConvertFontRequest) (r : ConvertFontResult)
    (hr : (ConvertFontUseCase.execute env request).1 = .ok r) :
    r.success = true ∧ r.target_format = request.target_format := by
  simp only [ConvertFontUseCase.execute] at hr
  split at hr
  · simp at hr
  · split at hr
    · simp at hr
    · split at hr
      · simp at hr
      · split at hr
        · simp only [Except.ok.injEq] at hr
          subst hr
          exact ⟨rfl, rfl⟩
        · exact absurd hr (cleanupReraise_not_ok env _ _ _ _ r)

/-- Witness for C10 at a successful conversion of `font.ttf` to WOFF. -/
theorem claim_C10_witness :
    ((ConvertFontUseCase.execute envSuccess reqTtfWoff).1 =
      .ok ⟨⟨[], "font.woff"⟩, FontFormat.WOFF, true⟩) ∧
    (ConvertFontResult.mk ⟨[], "font.woff"⟩ FontFormat.WOFF true).success = true ∧
    (ConvertFontResult.mk ⟨[], "font.woff"⟩ FontFormat.WOFF true).target_format =
      reqTtfWoff.target_format :=
  ⟨by decide, claim_C10 envSuccess reqTtfWoff _ (by decide)⟩

end FontConverter
